import Mathlib

/-!
Shallow embedding of the crowdfunding escrow contract
(src/crowdfunding_contract.py, PyTeal approval program).

Modelling conventions:
* All TEAL uint64 values are `Nat`.  TEAL arithmetic panics (and thereby
  aborts the transaction) on 64-bit overflow/underflow; wherever the source
  performs an operation that can panic (`goal*2`, `WideRatio` quotients,
  `raised - contrib`, `Balance - MinBalance`) the embedding carries an
  explicit bound as a guard, so a panic is `none` like every failed Assert.
  Values read with `Btoi` are below `2^64` by construction and additions
  guarded by comparisons against such values cannot overflow, so no extra
  bound is needed there.
* Addresses are `Nat`, with `0` standing for `Global.zero_address()`.
* An operation is a function `CState -> input -> Option (CState × List ITxn)`:
  `none` means the transaction aborts with no state change (a failed Assert
  or a TEAL panic), `some (st, outs)` means approval with new state `st`
  and the inner transactions `outs` emitted.  Companion group transactions
  (the contribute payment, the setup deposit and seed transfer) commit
  atomically with the call, so their balance effects are applied by the
  same function.
* `Txn.application_args.length()` checks are subsumed by the structured
  input records (each argument is a field), and `Txn.assets` is an explicit
  list; `assets.length >= 1 && assets[0] == x` is rendered `assets.head? = some x`.
* Inner-transaction feasibility that the ledger (not the program) enforces
  is modelled minimally: an inner asset transfer needs an existing holding
  with a sufficient balance, an inner payment needs a sufficient balance.
-/

namespace Crowdfund

/-- Transaction type discriminator (`TxnType` in the source). -/
inductive TxnType
  | payment
  | assetTransfer
  | appCall
  deriving DecidableEq

/-- Fields of a companion payment transaction read by the contract. -/
structure PayFields where
  typeEnum : TxnType
  sender : Nat
  receiver : Nat
  amount : Nat
  rekeyTo : Nat
  closeRemainderTo : Nat
  deriving DecidableEq

/-- Fields of a companion asset-transfer transaction read by the contract. -/
structure AxferFields where
  typeEnum : TxnType
  sender : Nat
  assetReceiver : Nat
  xferAsset : Nat
  assetAmount : Nat
  assetCloseTo : Nat
  rekeyTo : Nat
  deriving DecidableEq

/-- Reward-token policy parameters looked up with `AssetParam.*`. -/
structure AsaParams where
  defaultFrozen : Nat
  freezeAddr : Nat
  clawbackAddr : Nat
  deriving DecidableEq

/-- Inner transactions emitted through `InnerTxnBuilder`. -/
inductive ITxn
  | pay (receiver amount : Nat)
  | payClose (receiver amount closeTo : Nat)
  | axfer (asset receiver amount : Nat)
  | axferClose (asset receiver amount closeTo : Nat)
  deriving DecidableEq

/-- Global campaign state (the `KEY_*` global slots) together with the
escrow account's externally visible resources and the per-account local
state.  `locals` is an association list `(address, contrib)`: an entry is
present exactly when that account has opted in (`LKEY_CONTRIB`). -/
structure CState where
  creator : Nat
  admin : Nat
  goal : Nat
  rate : Nat
  deadline : Nat
  asaId : Nat
  raised : Nat
  deposit : Nat
  funded : Nat            -- the 0/1 latch stored at KEY_FUNDED
  appAddr : Nat           -- Global.current_application_address()
  balance : Nat           -- Balance(app_addr), microAlgos
  minBalance : Nat        -- MinBalance(app_addr), read-only ledger query
  asaHolding : Option Nat -- AssetHolding.balance(app_addr, asaId); none = not opted in
  locals : List (Nat × Nat)
  deriving DecidableEq

/-- `App.localGetEx(_, _, LKEY_CONTRIB)`: `some c` iff the account has
opted in, in which case `c` is its recorded contribution. -/
def getLocal : List (Nat × Nat) → Nat → Option Nat
  | [], _ => none
  | p :: t, a => if a = p.1 then some p.2 else getLocal t a

/-- `App.localPut(a, LKEY_CONTRIB, w)` on an opted-in account. -/
def setLocal : List (Nat × Nat) → Nat → Nat → List (Nat × Nat)
  | [], _, _ => []
  | p :: t, a, w => (if a = p.1 then (p.1, w) else p) :: setLocal t a w

/-- Removal of an account's local state (close-out). -/
def eraseLocal : List (Nat × Nat) → Nat → List (Nat × Nat)
  | [], _ => []
  | p :: t, a => if a = p.1 then eraseLocal t a else p :: eraseLocal t a

/-- Sum of all recorded contributions of opted-in accounts. -/
def sumContribs (l : List (Nat × Nat)) : Nat := (l.map Prod.snd).sum

/-- Arguments of application creation (`on_create`). -/
structure CreateInput where
  sender : Nat
  admin : Nat        -- application_args[0] (a 32-byte address)
  goal : Nat         -- Btoi(application_args[1])
  rate : Nat         -- Btoi(application_args[2])
  deadline : Nat     -- Btoi(application_args[3])
  round : Nat        -- Global.round() at creation
  appAddr : Nat
  balance0 : Nat     -- initial funding of the app account
  minBalance0 : Nat
  deriving DecidableEq

/-- `on_create`: validates the parameters and initialises every global slot. -/
def on_create (i : CreateInput) : Option CState :=
  if 0 < i.goal ∧ 0 < i.rate ∧ i.round < i.deadline then
    some { creator := i.sender, admin := i.admin, goal := i.goal, rate := i.rate,
           deadline := i.deadline, asaId := 0, raised := 0, deposit := 0, funded := 0,
           appAddr := i.appAddr, balance := i.balance0, minBalance := i.minBalance0,
           asaHolding := none, locals := [] }
  else none

/-- Inputs of the `setup` call: the caller, the `asa_id` argument, the
foreign-assets array, the group shape, the two companion transactions
`Gtxn[0]` (deposit payment) and `Gtxn[2]` (ASA seed transfer), and the
reward token's policy parameters. -/
structure SetupInput where
  sender : Nat
  asaArg : Nat        -- Btoi(application_args[1])
  assets : List Nat   -- Txn.assets
  groupSize : Nat
  groupIndex : Nat
  pay : PayFields     -- Gtxn[0]
  axfer : AxferFields -- Gtxn[2]
  params : AsaParams  -- AssetParam.* of asaArg
  deriving DecidableEq

/-- `setup` (one-time): all Asserts of the source in order, as one guard
(atomicity makes the interleaving of `App.globalPut`s with later Asserts
unobservable).  On success the deposit payment has landed in the escrow,
the ASA id and deposit are recorded, the app has opted into the ASA (the
emitted 0-amount self-transfer) and the seed transfer has landed. -/
def setup (st : CState) (i : SetupInput) : Option (CState × List ITxn) :=
  if i.sender = st.creator
     ∧ st.asaId = 0 ∧ st.deposit = 0 ∧ st.raised = 0 ∧ st.funded = 0
     ∧ i.assets.head? = some i.asaArg
     ∧ i.groupSize = 3 ∧ i.groupIndex = 1
     ∧ i.pay.typeEnum = TxnType.payment
     ∧ i.pay.sender = i.sender
     ∧ i.pay.receiver = st.appAddr
     ∧ st.goal * 2 < 2 ^ 64
     ∧ i.pay.amount = st.goal * 2 / 100
     ∧ i.pay.rekeyTo = 0 ∧ i.pay.closeRemainderTo = 0
     ∧ i.params.defaultFrozen = 0 ∧ i.params.freezeAddr = 0 ∧ i.params.clawbackAddr = 0
     ∧ i.axfer.typeEnum = TxnType.assetTransfer
     ∧ i.axfer.sender = i.sender
     ∧ i.axfer.assetReceiver = st.appAddr
     ∧ i.axfer.xferAsset = i.asaArg
     ∧ i.axfer.assetCloseTo = 0 ∧ i.axfer.rekeyTo = 0
     ∧ st.goal * st.rate / 1000000 < 2 ^ 64
     ∧ st.goal * st.rate / 1000000 ≤ i.axfer.assetAmount
  then
    some ({ st with deposit := i.pay.amount, asaId := i.asaArg,
                    balance := st.balance + i.pay.amount,
                    asaHolding := some i.axfer.assetAmount },
          [ITxn.axfer i.asaArg st.appAddr 0])
  else none

/-- Inputs of the `contribute` call: the caller, the current round, the
group shape and the companion payment `Gtxn[1]`. -/
structure ContributeInput where
  sender : Nat
  round : Nat
  groupSize : Nat
  groupIndex : Nat
  pay : PayFields     -- Gtxn[1]
  deriving DecidableEq

/-- `contribute`: requires an opted-in caller, an open campaign and a
well-shaped companion payment whose amount keeps `raised` within `goal`;
credits the full amount to the caller and to `raised`, and latches
`funded` the moment `raised` reaches `goal`. -/
def contribute (st : CState) (i : ContributeInput) : Option (CState × List ITxn) :=
  match getLocal st.locals i.sender with
  | none => none
  | some c =>
    if st.funded = 0 ∧ st.asaId ≠ 0 ∧ i.round ≤ st.deadline
       ∧ i.groupSize = 2 ∧ i.groupIndex = 0
       ∧ i.pay.typeEnum = TxnType.payment
       ∧ i.pay.sender = i.sender
       ∧ i.pay.receiver = st.appAddr
       ∧ 0 < i.pay.amount
       ∧ i.pay.rekeyTo = 0 ∧ i.pay.closeRemainderTo = 0
       ∧ st.raised + i.pay.amount ≤ st.goal
    then
      some ({ st with
              locals := setLocal st.locals i.sender (c + i.pay.amount),
              raised := st.raised + i.pay.amount,
              funded := if st.raised + i.pay.amount = st.goal then 1 else st.funded,
              balance := st.balance + i.pay.amount }, [])
    else none

/-- Inputs of the `claim` call. -/
structure ClaimInput where
  sender : Nat
  assets : List Nat   -- Txn.assets
  deriving DecidableEq

/-- `claim`: after success, an opted-in caller with a positive recorded
contribution receives `floor(contrib * rate / 10^6)` reward tokens (no
transfer when that is 0) and their local record is zeroed; `raised` is
not decremented. -/
def claim (st : CState) (i : ClaimInput) : Option (CState × List ITxn) :=
  match getLocal st.locals i.sender with
  | none => none
  | some c =>
    if st.funded = 1 ∧ i.assets.head? = some st.asaId ∧ 0 < c
       ∧ c * st.rate / 1000000 < 2 ^ 64 then
      let due := c * st.rate / 1000000
      if 0 < due then
        match st.asaHolding with
        | none => none            -- inner transfer impossible without an opt-in
        | some h =>
          if due ≤ h then
            some ({ st with locals := setLocal st.locals i.sender 0,
                            asaHolding := some (h - due) },
                  [ITxn.axfer st.asaId i.sender due])
          else none               -- inner transfer fails: insufficient holding
      else
        some ({ st with locals := setLocal st.locals i.sender 0 }, [])
    else none

/-- Inputs of the `withdraw` call. -/
structure WithdrawInput where
  sender : Nat
  deriving DecidableEq

/-- `withdraw` (creator payout after success): pays
`min(2% of raised, unlocked)` to the admin and the rest of
`unlocked = balance - minBalance` to the creator, each transfer skipped
when its amount is 0.  No one-time latch guards it. -/
def withdraw (st : CState) (i : WithdrawInput) : Option (CState × List ITxn) :=
  if i.sender = st.creator ∧ st.funded = 1
     ∧ st.minBalance ≤ st.balance       -- Balance - MinBalance would panic otherwise
     ∧ st.raised * 2 < 2 ^ 64 then      -- raised * 2 would panic otherwise
    let unlocked := st.balance - st.minBalance
    let fee0 := st.raised * 2 / 100
    let fee := if fee0 ≤ unlocked then fee0 else unlocked
    let toCreator := unlocked - fee
    some ({ st with balance := st.balance - fee - toCreator },
      (if 0 < fee then [ITxn.pay st.admin fee] else []) ++
      (if 0 < toCreator then [ITxn.pay st.creator toCreator] else []))
  else none

/-- Inputs of the `refund` call. -/
structure RefundInput where
  sender : Nat
  round : Nat
  deriving DecidableEq

/-- `refund` (failure path): after the deadline, while unfunded, an
opted-in caller with positive recorded contribution is paid it back in
full; the record is zeroed and `raised` decremented by the same amount. -/
def refund (st : CState) (i : RefundInput) : Option (CState × List ITxn) :=
  match getLocal st.locals i.sender with
  | none => none
  | some c =>
    if st.deadline < i.round ∧ st.funded = 0 ∧ 0 < c
       ∧ c ≤ st.balance     -- inner payment feasibility (ledger rule)
       ∧ c ≤ st.raised      -- raised - contrib would panic otherwise
    then
      some ({ st with balance := st.balance - c,
                      locals := setLocal st.locals i.sender 0,
                      raised := st.raised - c },
            [ITxn.pay i.sender c])
    else none

/-- Inputs of the `reclaim` call. -/
structure ReclaimInput where
  sender : Nat
  round : Nat
  deriving DecidableEq

/-- `reclaim` (one-time, failure path): after all refunds, splits the
deposit half/half between admin and creator, each half capped by what is
unlocked, and zeroes the deposit as replay guard. -/
def reclaim (st : CState) (i : ReclaimInput) : Option (CState × List ITxn) :=
  if st.deadline < i.round ∧ st.funded = 0 ∧ i.sender = st.creator
     ∧ st.raised = 0 ∧ 0 < st.deposit
     ∧ st.minBalance ≤ st.balance then  -- Balance - MinBalance would panic otherwise
    let half := st.deposit / 2
    let unlocked := st.balance - st.minBalance
    let payAdmin := if unlocked < half then unlocked else half
    let payCreator := if unlocked - payAdmin < half then unlocked - payAdmin else half
    some ({ st with balance := st.balance - payAdmin - payCreator, deposit := 0 },
      (if 0 < payAdmin then [ITxn.pay st.admin payAdmin] else []) ++
      (if 0 < payCreator then [ITxn.pay st.creator payCreator] else []))
  else none

/-- Inputs of the sweep and close calls. -/
structure SweepInput where
  sender : Nat
  round : Nat
  deriving DecidableEq

/-- `sweep_asa_failed`: after a fully refunded failed campaign the creator
closes the escrow's ASA holding out to themselves. -/
def sweep_asa_failed (st : CState) (i : SweepInput) : Option (CState × List ITxn) :=
  match st.asaHolding with
  | none => none     -- inner close-out impossible without an opt-in
  | some _h =>
    if st.deadline < i.round ∧ st.funded = 0 ∧ i.sender = st.creator
       ∧ st.raised = 0 ∧ st.asaId ≠ 0 then
      some ({ st with asaHolding := none },
            [ITxn.axferClose st.asaId st.creator 0 st.creator])
    else none

/-- `sweep_asa_success`: after success and past the deadline the creator
closes out residual ASA dust. -/
def sweep_asa_success (st : CState) (i : SweepInput) : Option (CState × List ITxn) :=
  match st.asaHolding with
  | none => none     -- inner close-out impossible without an opt-in
  | some _h =>
    if st.funded = 1 ∧ i.sender = st.creator ∧ st.deadline < i.round
       ∧ st.asaId ≠ 0 then
      some ({ st with asaHolding := none },
            [ITxn.axferClose st.asaId st.creator 0 st.creator])
    else none

/-- `close_vault`: terminal close.  On the success branch the ASA holding
must exist and be exactly 0 (it is then closed out); on the failure branch
refunds and reclaim must be complete, and a lingering positive holding is
closed out.  Finally a 0-amount payment with `close_remainder_to = creator`
empties the whole native balance to the creator. -/
def close_vault (st : CState) (i : SweepInput) : Option (CState × List ITxn) :=
  if i.sender = st.creator then
    if st.funded = 1 then
      if st.asaId ≠ 0 then
        match st.asaHolding with
        | none => none             -- Assert(asa_bal2.hasValue()) fails
        | some h =>
          if h = 0 then
            some ({ st with asaHolding := none, balance := 0 },
              [ITxn.axferClose st.asaId st.creator 0 st.creator,
               ITxn.payClose st.creator 0 st.creator])
          else none
      else
        some ({ st with balance := 0 }, [ITxn.payClose st.creator 0 st.creator])
    else
      if st.deadline < i.round ∧ st.raised = 0 ∧ st.deposit = 0 then
        if st.asaId ≠ 0 then
          match st.asaHolding with
          | some h =>
            if 0 < h then
              some ({ st with asaHolding := none, balance := 0 },
                [ITxn.axferClose st.asaId st.creator 0 st.creator,
                 ITxn.payClose st.creator 0 st.creator])
            else
              some ({ st with balance := 0 }, [ITxn.payClose st.creator 0 st.creator])
          | none =>
            some ({ st with balance := 0 }, [ITxn.payClose st.creator 0 st.creator])
        else
          some ({ st with balance := 0 }, [ITxn.payClose st.creator 0 st.creator])
      else none
  else none

/-- `on_delete`: deletion is approved only with a zero native balance, a
zero ASA holding whenever an ASA was configured, and `raised` and
`deposit` both zero. -/
def on_delete (st : CState) : Bool :=
  (st.balance == 0)
  && (if st.asaId != 0 then st.asaHolding == some 0 else true)
  && (st.raised == 0)
  && (st.deposit == 0)

/-- `on_optin`: initialises the caller's local contribution to 0.  The
ledger rejects an opt-in by an already opted-in account. -/
def on_optin (st : CState) (sender : Nat) : Option (CState × List ITxn) :=
  match getLocal st.locals sender with
  | some _ => none
  | none => some ({ st with locals := (sender, 0) :: st.locals }, [])

/-- `on_closeout`: allowed only with a zero recorded contribution; the
local record disappears. -/
def on_closeout (st : CState) (sender : Nat) : Option (CState × List ITxn) :=
  match getLocal st.locals sender with
  | none => none
  | some c =>
    if c = 0 then some ({ st with locals := eraseLocal st.locals sender }, [])
    else none

/-- One application call to the deployed app (the NoOp dispatch plus the
opt-in and close-out lifecycle handlers). -/
inductive Op
  | opSetup (i : SetupInput)
  | opContribute (i : ContributeInput)
  | opClaim (i : ClaimInput)
  | opWithdraw (i : WithdrawInput)
  | opRefund (i : RefundInput)
  | opReclaim (i : ReclaimInput)
  | opSweepFailed (i : SweepInput)
  | opSweepSuccess (i : SweepInput)
  | opCloseVault (i : SweepInput)
  | opOptIn (sender : Nat)
  | opCloseOut (sender : Nat)
  deriving DecidableEq

/-- Dispatch of one call, as the `Cond` at the end of `approval_program`. -/
def apply (st : CState) : Op → Option (CState × List ITxn)
  | .opSetup i => setup st i
  | .opContribute i => contribute st i
  | .opClaim i => claim st i
  | .opWithdraw i => withdraw st i
  | .opRefund i => refund st i
  | .opReclaim i => reclaim st i
  | .opSweepFailed i => sweep_asa_failed st i
  | .opSweepSuccess i => sweep_asa_success st i
  | .opCloseVault i => close_vault st i
  | .opOptIn a => on_optin st a
  | .opCloseOut a => on_closeout st a

/-- States reachable from application creation by any sequence of calls. -/
inductive Reachable : CState → Prop
  | create (i : CreateInput) (st : CState) :
      on_create i = some st → Reachable st
  | step (st : CState) (op : Op) (st' : CState) (out : List ITxn) :
      Reachable st → apply st op = some (st', out) → Reachable st'

/-- A contribute attempt as one step of a sequence: a rejected attempt
leaves the state untouched. -/
def contribStep (st : CState) (i : ContributeInput) : CState :=
  match contribute st i with
  | some (st', _) => st'
  | none => st

/-- A whole sequence of contribute attempts. -/
def contribRun (st : CState) (l : List ContributeInput) : CState :=
  l.foldl contribStep st

/-- Total explicit amount of the emitted inner payments. -/
def paidOut : List ITxn → Nat
  | [] => 0
  | .pay _ a :: t => a + paidOut t
  | .payClose _ a _ :: t => a + paidOut t
  | .axfer _ _ _ :: t => paidOut t
  | .axferClose _ _ _ _ :: t => paidOut t

/-- No account owns two local records. -/
def KeysNodup (l : List (Nat × Nat)) : Prop := (l.map Prod.fst).Nodup

/-- The inductive invariant: local records are per-account, and while the
campaign is unfunded `raised` is exactly the sum of the recorded
contributions. -/
def Inv (st : CState) : Prop :=
  KeysNodup st.locals ∧ (st.funded = 0 → st.raised = sumContribs st.locals)

/-! ### A concrete campaign used to exercise the operations

The scenario of the specification: goal 10_000_000 microAlgos, rate 100,
deposit 200_000; accounts: creator 1, admin 2, escrow 3, investors 10
and 11; reward token id 7, seeded with 1000 units. -/

def sampleCI : CreateInput :=
  { sender := 1, admin := 2, goal := 10000000, rate := 100, deadline := 50,
    round := 10, appAddr := 3, balance0 := 300000, minBalance0 := 100000 }

/-- The state right after creation. -/
def sampleCreated : CState :=
  { creator := 1, admin := 2, goal := 10000000, rate := 100, deadline := 50,
    asaId := 0, raised := 0, deposit := 0, funded := 0, appAddr := 3,
    balance := 300000, minBalance := 100000, asaHolding := none, locals := [] }

def sampleSetupIn : SetupInput :=
  { sender := 1, asaArg := 7, assets := [7], groupSize := 3, groupIndex := 1,
    pay := { typeEnum := .payment, sender := 1, receiver := 3, amount := 200000,
             rekeyTo := 0, closeRemainderTo := 0 },
    axfer := { typeEnum := .assetTransfer, sender := 1, assetReceiver := 3,
               xferAsset := 7, assetAmount := 1000, assetCloseTo := 0, rekeyTo := 0 },
    params := { defaultFrozen := 0, freezeAddr := 0, clawbackAddr := 0 } }

/-- The state after `setup`. -/
def sampleSetup : CState :=
  { sampleCreated with asaId := 7, deposit := 200000, balance := 500000,
                       asaHolding := some 1000 }

/-- The state after investors 10 and 11 have opted in. -/
def sampleOpted : CState :=
  { sampleSetup with locals := [(11, 0), (10, 0)] }

def sampleC10 : ContributeInput :=
  { sender := 10, round := 20, groupSize := 2, groupIndex := 0,
    pay := { typeEnum := .payment, sender := 10, receiver := 3, amount := 6000000,
             rekeyTo := 0, closeRemainderTo := 0 } }

def sampleC11 : ContributeInput :=
  { sender := 11, round := 20, groupSize := 2, groupIndex := 0,
    pay := { typeEnum := .payment, sender := 11, receiver := 3, amount := 4000000,
             rekeyTo := 0, closeRemainderTo := 0 } }

/-- A smaller contribution by investor 10 (used on the failure path). -/
def sampleC10small : ContributeInput :=
  { sender := 10, round := 20, groupSize := 2, groupIndex := 0,
    pay := { typeEnum := .payment, sender := 10, receiver := 3, amount := 4000000,
             rekeyTo := 0, closeRemainderTo := 0 } }

/-- After investor 10 contributed 6_000_000. -/
def sampleMid : CState :=
  { sampleOpted with raised := 6000000, balance := 6500000,
                     locals := [(11, 0), (10, 6000000)] }

/-- After investor 11 contributed 4_000_000: the goal is reached and
`funded` latches. -/
def sampleFunded : CState :=
  { sampleOpted with raised := 10000000, funded := 1, balance := 10500000,
                     locals := [(11, 4000000), (10, 6000000)] }

/-- After investor 10 claimed 600 reward tokens. -/
def sampleClaimed1 : CState :=
  { sampleFunded with asaHolding := some 400, locals := [(11, 4000000), (10, 0)] }

/-- After investor 11 claimed 400 reward tokens: the holding is empty. -/
def sampleClaimed2 : CState :=
  { sampleFunded with asaHolding := some 0, locals := [(11, 0), (10, 0)] }

/-- After `close_vault` on the success path: the escrow is emptied. -/
def sampleClosed : CState :=
  { sampleClaimed2 with asaHolding := none, balance := 0 }

/-- After investor 10 contributed 4_000_000 only (failure path). -/
def sampleSmallMid : CState :=
  { sampleOpted with raised := 4000000, balance := 4500000,
                     locals := [(11, 0), (10, 4000000)] }

/-! ### Lemmas about the local-state association list -/

lemma getLocal_eq_none_iff {l : List (Nat × Nat)} {a : Nat} :
    getLocal l a = none ↔ a ∉ l.map Prod.fst := by
  induction l with
  | nil => simp [getLocal]
  | cons p t ih => by_cases h : a = p.1 <;> simp [getLocal, h, ih]

lemma sumContribs_cons (p : Nat × Nat) (t : List (Nat × Nat)) :
    sumContribs (p :: t) = p.2 + sumContribs t := by
  simp [sumContribs]

lemma getLocal_le_sum {l : List (Nat × Nat)} {a v : Nat}
    (h : getLocal l a = some v) : v ≤ sumContribs l := by
  induction l with
  | nil => simp [getLocal] at h
  | cons p t ih =>
    rw [sumContribs_cons]
    by_cases hp : a = p.1
    · simp [getLocal, hp] at h
      omega
    · simp [getLocal, hp] at h
      have := ih h
      omega

lemma keys_setLocal (l : List (Nat × Nat)) (a w : Nat) :
    (setLocal l a w).map Prod.fst = l.map Prod.fst := by
  induction l with
  | nil => rfl
  | cons p t ih =>
    by_cases h : a = p.1
    · subst h
      simp [setLocal, ih]
    · simp [setLocal, h, ih]

lemma keysNodup_setLocal {l : List (Nat × Nat)} (a w : Nat)
    (h : KeysNodup l) : KeysNodup (setLocal l a w) := by
  unfold KeysNodup
  rw [keys_setLocal]
  exact h

lemma setLocal_of_not_mem {l : List (Nat × Nat)} {a : Nat} (w : Nat)
    (h : a ∉ l.map Prod.fst) : setLocal l a w = l := by
  induction l with
  | nil => rfl
  | cons p t ih =>
    simp only [List.map_cons, List.mem_cons] at h
    push_neg at h
    simp [setLocal, h.1, ih h.2]

lemma getLocal_setLocal_self {l : List (Nat × Nat)} {a v : Nat} (w : Nat)
    (h : getLocal l a = some v) : getLocal (setLocal l a w) a = some w := by
  induction l with
  | nil => simp [getLocal] at h
  | cons p t ih =>
    by_cases hp : a = p.1
    · simp [setLocal, getLocal, hp]
    · simp only [getLocal, if_neg hp] at h
      simp [setLocal, getLocal, hp, ih h]

lemma sum_setLocal {l : List (Nat × Nat)} {a v : Nat} (w : Nat)
    (hn : KeysNodup l) (h : getLocal l a = some v) :
    sumContribs (setLocal l a w) + v = sumContribs l + w := by
  induction l with
  | nil => simp [getLocal] at h
  | cons p t ih =>
    have hn' : p.1 ∉ t.map Prod.fst ∧ KeysNodup t := by
      unfold KeysNodup at hn
      simp only [List.map_cons, List.nodup_cons] at hn
      exact hn
    by_cases hp : a = p.1
    · simp only [getLocal, if_pos hp, Option.some.injEq] at h
      have ht : setLocal t a w = t := setLocal_of_not_mem w (hp ▸ hn'.1)
      simp only [setLocal, if_pos hp, ht, sumContribs_cons]
      omega
    · simp only [getLocal, if_neg hp] at h
      have := ih hn'.2 h
      simp only [setLocal, if_neg hp, sumContribs_cons]
      omega

lemma mem_keys_eraseLocal {l : List (Nat × Nat)} {a x : Nat}
    (h : x ∈ (eraseLocal l a).map Prod.fst) : x ∈ l.map Prod.fst := by
  induction l with
  | nil => simp [eraseLocal] at h
  | cons p t ih =>
    by_cases hp : a = p.1
    · simp only [eraseLocal, if_pos hp] at h
      simp [ih h]
    · simp only [eraseLocal, if_neg hp, List.map_cons, List.mem_cons] at h
      rcases h with h | h
      · simp [h]
      · simp [ih h]

lemma keysNodup_eraseLocal {l : List (Nat × Nat)} (a : Nat)
    (hn : KeysNodup l) : KeysNodup (eraseLocal l a) := by
  induction l with
  | nil => exact hn
  | cons p t ih =>
    have hn' : p.1 ∉ t.map Prod.fst ∧ KeysNodup t := by
      unfold KeysNodup at hn
      simp only [List.map_cons, List.nodup_cons] at hn
      exact hn
    by_cases hp : a = p.1
    · simp only [eraseLocal, if_pos hp]
      exact ih hn'.2
    · simp only [eraseLocal, if_neg hp]
      unfold KeysNodup
      simp only [List.map_cons, List.nodup_cons]
      exact ⟨fun hmem => hn'.1 (mem_keys_eraseLocal hmem), ih hn'.2⟩

lemma eraseLocal_of_not_mem {l : List (Nat × Nat)} {a : Nat}
    (h : a ∉ l.map Prod.fst) : eraseLocal l a = l := by
  induction l with
  | nil => rfl
  | cons p t ih =>
    simp only [List.map_cons, List.mem_cons] at h
    push_neg at h
    simp [eraseLocal, h.1, ih h.2]

lemma sum_eraseLocal {l : List (Nat × Nat)} {a v : Nat}
    (hn : KeysNodup l) (h : getLocal l a = some v) :
    sumContribs (eraseLocal l a) + v = sumContribs l := by
  induction l with
  | nil => simp [getLocal] at h
  | cons p t ih =>
    have hn' : p.1 ∉ t.map Prod.fst ∧ KeysNodup t := by
      unfold KeysNodup at hn
      simp only [List.map_cons, List.nodup_cons] at hn
      exact hn
    by_cases hp : a = p.1
    · simp only [getLocal, if_pos hp, Option.some.injEq] at h
      have ht : eraseLocal t a = t := eraseLocal_of_not_mem (hp ▸ hn'.1)
      simp only [eraseLocal, if_pos hp, ht, sumContribs_cons]
      omega
    · simp only [getLocal, if_neg hp] at h
      have := ih hn'.2 h
      simp only [eraseLocal, if_neg hp, sumContribs_cons]
      omega

/-! ### Inversion lemmas for the operations -/

lemma contribute_elim {st : CState} {i : ContributeInput} {st' : CState} {out : List ITxn}
    (h : contribute st i = some (st', out)) :
    ∃ c, getLocal st.locals i.sender = some c ∧ st.funded = 0 ∧ st.asaId ≠ 0
      ∧ i.round ≤ st.deadline ∧ 0 < i.pay.amount
      ∧ st.raised + i.pay.amount ≤ st.goal
      ∧ st' = { st with locals := setLocal st.locals i.sender (c + i.pay.amount),
                        raised := st.raised + i.pay.amount,
                        funded := if st.raised + i.pay.amount = st.goal then 1 else st.funded,
                        balance := st.balance + i.pay.amount }
      ∧ out = [] := by
  cases hg : getLocal st.locals i.sender with
  | none => simp [contribute, hg] at h
  | some c =>
    simp only [contribute, hg] at h
    split at h
    case isTrue hc =>
      simp only [Option.some.injEq, Prod.mk.injEq] at h
      exact ⟨c, rfl, hc.1, hc.2.1, hc.2.2.1, hc.2.2.2.2.2.2.2.2.1,
             hc.2.2.2.2.2.2.2.2.2.2.2, h.1.symm, h.2.symm⟩
    case isFalse => simp at h

lemma setup_elim {st : CState} {i : SetupInput} {st' : CState} {out : List ITxn}
    (h : setup st i = some (st', out)) :
    i.sender = st.creator
    ∧ st.asaId = 0 ∧ st.deposit = 0 ∧ st.raised = 0 ∧ st.funded = 0
    ∧ i.pay.amount = st.goal * 2 / 100
    ∧ st.goal * st.rate / 1000000 ≤ i.axfer.assetAmount
    ∧ i.params.defaultFrozen = 0 ∧ i.params.freezeAddr = 0 ∧ i.params.clawbackAddr = 0
    ∧ st' = { st with deposit := i.pay.amount, asaId := i.asaArg,
                      balance := st.balance + i.pay.amount,
                      asaHolding := some i.axfer.assetAmount }
    ∧ out = [ITxn.axfer i.asaArg st.appAddr 0] := by
  unfold setup at h
  split at h
  case isTrue hc =>
    simp only [Option.some.injEq, Prod.mk.injEq] at h
    refine ⟨hc.1, hc.2.1, hc.2.2.1, hc.2.2.2.1, hc.2.2.2.2.1, ?_, ?_, ?_, ?_, ?_,
            h.1.symm, h.2.symm⟩
    · exact hc.2.2.2.2.2.2.2.2.2.2.2.2.1
    · exact hc.2.2.2.2.2.2.2.2.2.2.2.2.2.2.2.2.2.2.2.2.2.2.2.2.2
    · exact hc.2.2.2.2.2.2.2.2.2.2.2.2.2.2.2.1
    · exact hc.2.2.2.2.2.2.2.2.2.2.2.2.2.2.2.2.1
    · exact hc.2.2.2.2.2.2.2.2.2.2.2.2.2.2.2.2.2.1
  case isFalse => simp at h

lemma claim_elim {st : CState} {i : ClaimInput} {st' : CState} {out : List ITxn}
    (h : claim st i = some (st', out)) :
    ∃ c, getLocal st.locals i.sender = some c ∧ st.funded = 1 ∧ 0 < c
      ∧ st'.locals = setLocal st.locals i.sender 0
      ∧ st'.raised = st.raised ∧ st'.funded = st.funded
      ∧ st'.goal = st.goal ∧ st'.deadline = st.deadline
      ∧ st'.balance = st.balance ∧ st'.minBalance = st.minBalance
      ∧ (0 < c * st.rate / 1000000 →
          out = [ITxn.axfer st.asaId i.sender (c * st.rate / 1000000)])
      ∧ (c * st.rate / 1000000 = 0 → out = []) := by
  cases hg : getLocal st.locals i.sender with
  | none => simp [claim, hg] at h
  | some c =>
    simp only [claim, hg] at h
    split at h
    case isTrue hc =>
      split at h
      case isTrue hdue =>
        cases hh : st.asaHolding with
        | none => rw [hh] at h; simp at h
        | some hbal =>
          rw [hh] at h
          simp only at h
          split at h
          case isTrue hle =>
            simp only [Option.some.injEq, Prod.mk.injEq] at h
            obtain ⟨h1, h2⟩ := h
            subst h1
            subst h2
            exact ⟨c, rfl, hc.1, hc.2.2.1, rfl, rfl, rfl, rfl, rfl, rfl, rfl,
                   fun _ => rfl, fun hz => absurd hz (by omega)⟩
          case isFalse => simp at h
      case isFalse hdue =>
        simp only [Option.some.injEq, Prod.mk.injEq] at h
        obtain ⟨h1, h2⟩ := h
        subst h1
        subst h2
        exact ⟨c, rfl, hc.1, hc.2.2.1, rfl, rfl, rfl, rfl, rfl, rfl, rfl,
               fun hpos => absurd hpos hdue, fun _ => rfl⟩
    case isFalse => simp at h

lemma withdraw_elim {st : CState} {i : WithdrawInput} {st' : CState} {out : List ITxn}
    (h : withdraw st i = some (st', out)) :
    i.sender = st.creator ∧ st.funded = 1 ∧ st.minBalance ≤ st.balance
    ∧ st.raised * 2 < 2 ^ 64
    ∧ st' = { st with balance :=
                st.balance
                - (if st.raised * 2 / 100 ≤ st.balance - st.minBalance
                   then st.raised * 2 / 100 else st.balance - st.minBalance)
                - ((st.balance - st.minBalance)
                   - (if st.raised * 2 / 100 ≤ st.balance - st.minBalance
                      then st.raised * 2 / 100 else st.balance - st.minBalance)) }
    ∧ out =
        (if 0 < (if st.raised * 2 / 100 ≤ st.balance - st.minBalance
                 then st.raised * 2 / 100 else st.balance - st.minBalance)
         then [ITxn.pay st.admin
                 (if st.raised * 2 / 100 ≤ st.balance - st.minBalance
                  then st.raised * 2 / 100 else st.balance - st.minBalance)] else [])
        ++ (if 0 < ((st.balance - st.minBalance)
                    - (if st.raised * 2 / 100 ≤ st.balance - st.minBalance
                       then st.raised * 2 / 100 else st.balance - st.minBalance))
            then [ITxn.pay st.creator
                    ((st.balance - st.minBalance)
                     - (if st.raised * 2 / 100 ≤ st.balance - st.minBalance
                        then st.raised * 2 / 100 else st.balance - st.minBalance))]
            else []) := by
  unfold withdraw at h
  split at h
  case isTrue hc =>
    simp only [Option.some.injEq, Prod.mk.injEq] at h
    exact ⟨hc.1, hc.2.1, hc.2.2.1, hc.2.2.2, h.1.symm, h.2.symm⟩
  case isFalse => simp at h

lemma refund_elim {st : CState} {i : RefundInput} {st' : CState} {out : List ITxn}
    (h : refund st i = some (st', out)) :
    ∃ c, getLocal st.locals i.sender = some c
      ∧ st.deadline < i.round ∧ st.funded = 0 ∧ 0 < c
      ∧ c ≤ st.balance ∧ c ≤ st.raised
      ∧ st' = { st with balance := st.balance - c,
                        locals := setLocal st.locals i.sender 0,
                        raised := st.raised - c }
      ∧ out = [ITxn.pay i.sender c] := by
  cases hg : getLocal st.locals i.sender with
  | none => simp [refund, hg] at h
  | some c =>
    simp only [refund, hg] at h
    split at h
    case isTrue hc =>
      simp only [Option.some.injEq, Prod.mk.injEq] at h
      exact ⟨c, rfl, hc.1, hc.2.1, hc.2.2.1, hc.2.2.2.1, hc.2.2.2.2,
             h.1.symm, h.2.symm⟩
    case isFalse => simp at h

lemma reclaim_elim {st : CState} {i : ReclaimInput} {st' : CState} {out : List ITxn}
    (h : reclaim st i = some (st', out)) :
    st.deadline < i.round ∧ st.funded = 0 ∧ i.sender = st.creator
    ∧ st.raised = 0 ∧ 0 < st.deposit ∧ st.minBalance ≤ st.balance
    ∧ st' = { st with
              balance :=
                st.balance
                - (if st.balance - st.minBalance < st.deposit / 2
                   then st.balance - st.minBalance else st.deposit / 2)
                - (if (st.balance - st.minBalance)
                      - (if st.balance - st.minBalance < st.deposit / 2
                         then st.balance - st.minBalance else st.deposit / 2)
                      < st.deposit / 2
                   then (st.balance - st.minBalance)
                        - (if st.balance - st.minBalance < st.deposit / 2
                           then st.balance - st.minBalance else st.deposit / 2)
                   else st.deposit / 2),
              deposit := 0 }
    ∧ out =
        (if 0 < (if st.balance - st.minBalance < st.deposit / 2
                 then st.balance - st.minBalance else st.deposit / 2)
         then [ITxn.pay st.admin
                (if st.balance - st.minBalance < st.deposit / 2
                 then st.balance - st.minBalance else st.deposit / 2)]
         else [])
        ++ (if 0 < (if (st.balance - st.minBalance)
                       - (if st.balance - st.minBalance < st.deposit / 2
                          then st.balance - st.minBalance else st.deposit / 2)
                       < st.deposit / 2
                    then (st.balance - st.minBalance)
                         - (if st.balance - st.minBalance < st.deposit / 2
                            then st.balance - st.minBalance else st.deposit / 2)
                    else st.deposit / 2)
            then [ITxn.pay st.creator
                   (if (st.balance - st.minBalance)
                       - (if st.balance - st.minBalance < st.deposit / 2
                          then st.balance - st.minBalance else st.deposit / 2)
                       < st.deposit / 2
                    then (st.balance - st.minBalance)
                         - (if st.balance - st.minBalance < st.deposit / 2
                            then st.balance - st.minBalance else st.deposit / 2)
                    else st.deposit / 2)]
            else []) := by
  unfold reclaim at h
  split at h
  case isTrue hc =>
    simp only [Option.some.injEq, Prod.mk.injEq] at h
    exact ⟨hc.1, hc.2.1, hc.2.2.1, hc.2.2.2.1, hc.2.2.2.2.1, hc.2.2.2.2.2,
           h.1.symm, h.2.symm⟩
  case isFalse => simp at h

lemma sweep_asa_failed_elim {st : CState} {i : SweepInput} {st' : CState} {out : List ITxn}
    (h : sweep_asa_failed st i = some (st', out)) :
    st.funded = 0 ∧ st' = { st with asaHolding := none } := by
  unfold sweep_asa_failed at h
  cases hh : st.asaHolding with
  | none => rw [hh] at h; simp at h
  | some hbal =>
    rw [hh] at h
    simp only at h
    split at h
    case isTrue hc =>
      simp only [Option.some.injEq, Prod.mk.injEq] at h
      exact ⟨hc.2.1, h.1.symm⟩
    case isFalse => simp at h

lemma sweep_asa_success_elim {st : CState} {i : SweepInput} {st' : CState} {out : List ITxn}
    (h : sweep_asa_success st i = some (st', out)) :
    st.funded = 1 ∧ st' = { st with asaHolding := none } := by
  unfold sweep_asa_success at h
  cases hh : st.asaHolding with
  | none => rw [hh] at h; simp at h
  | some hbal =>
    rw [hh] at h
    simp only at h
    split at h
    case isTrue hc =>
      simp only [Option.some.injEq, Prod.mk.injEq] at h
      exact ⟨hc.1, h.1.symm⟩
    case isFalse => simp at h

lemma close_vault_elim {st : CState} {i : SweepInput} {st' : CState} {out : List ITxn}
    (h : close_vault st i = some (st', out)) :
    st'.locals = st.locals ∧ st'.raised = st.raised ∧ st'.funded = st.funded
    ∧ st'.deposit = st.deposit ∧ st'.goal = st.goal
    ∧ st'.minBalance = st.minBalance ∧ st'.balance = 0 ∧ paidOut out = 0 := by
  unfold close_vault at h
  split at h
  case isFalse => simp at h
  case isTrue =>
    split at h
    case isTrue =>
      split at h
      case isTrue =>
        cases hh : st.asaHolding with
        | none => rw [hh] at h; simp at h
        | some hbal =>
          rw [hh] at h
          simp only at h
          split at h
          case isTrue =>
            simp only [Option.some.injEq, Prod.mk.injEq] at h
            rw [← h.1, ← h.2]
            exact ⟨rfl, rfl, rfl, rfl, rfl, rfl, rfl, rfl⟩
          case isFalse => simp at h
      case isFalse =>
        simp only [Option.some.injEq, Prod.mk.injEq] at h
        rw [← h.1, ← h.2]
        exact ⟨rfl, rfl, rfl, rfl, rfl, rfl, rfl, rfl⟩
    case isFalse =>
      split at h
      case isFalse => simp at h
      case isTrue =>
        split at h
        case isTrue =>
          cases hh : st.asaHolding with
          | none =>
            rw [hh] at h
            simp only [Option.some.injEq, Prod.mk.injEq] at h
            rw [← h.1, ← h.2]
            exact ⟨rfl, rfl, rfl, rfl, rfl, rfl, rfl, rfl⟩
          | some hbal =>
            rw [hh] at h
            simp only at h
            split at h
            case isTrue =>
              simp only [Option.some.injEq, Prod.mk.injEq] at h
              rw [← h.1, ← h.2]
              exact ⟨rfl, rfl, rfl, rfl, rfl, rfl, rfl, rfl⟩
            case isFalse =>
              simp only [Option.some.injEq, Prod.mk.injEq] at h
              rw [← h.1, ← h.2]
              exact ⟨rfl, rfl, rfl, rfl, rfl, rfl, rfl, rfl⟩
        case isFalse =>
          simp only [Option.some.injEq, Prod.mk.injEq] at h
          rw [← h.1, ← h.2]
          exact ⟨rfl, rfl, rfl, rfl, rfl, rfl, rfl, rfl⟩

lemma on_optin_elim {st : CState} {a : Nat} {st' : CState} {out : List ITxn}
    (h : on_optin st a = some (st', out)) :
    getLocal st.locals a = none ∧ st' = { st with locals := (a, 0) :: st.locals } := by
  unfold on_optin at h
  cases hg : getLocal st.locals a with
  | some c => rw [hg] at h; simp at h
  | none =>
    rw [hg] at h
    simp only [Option.some.injEq, Prod.mk.injEq] at h
    exact ⟨rfl, h.1.symm⟩

lemma on_closeout_elim {st : CState} {a : Nat} {st' : CState} {out : List ITxn}
    (h : on_closeout st a = some (st', out)) :
    getLocal st.locals a = some 0 ∧ st' = { st with locals := eraseLocal st.locals a } := by
  unfold on_closeout at h
  cases hg : getLocal st.locals a with
  | none => rw [hg] at h; simp at h
  | some c =>
    rw [hg] at h
    simp only at h
    split at h
    case isTrue hz =>
      subst hz
      simp only [Option.some.injEq, Prod.mk.injEq] at h
      exact ⟨rfl, h.1.symm⟩
    case isFalse => simp at h

/-! ### The inductive invariant -/

lemma inv_of_frame {st st' : CState}
    (hl : st'.locals = st.locals) (hr : st'.raised = st.raised)
    (hf : st'.funded = st.funded) (hi : Inv st) : Inv st' := by
  refine ⟨hl ▸ hi.1, fun h0 => ?_⟩
  rw [hr, hl]
  exact hi.2 (hf ▸ h0)

lemma inv_create {i : CreateInput} {st : CState}
    (h : on_create i = some st) : Inv st := by
  unfold on_create at h
  split at h
  case isTrue =>
    simp only [Option.some.injEq] at h
    rw [← h]
    exact ⟨List.nodup_nil, fun _ => rfl⟩
  case isFalse => simp at h

lemma inv_step {st st' : CState} {op : Op} {out : List ITxn}
    (hi : Inv st) (h : apply st op = some (st', out)) : Inv st' := by
  cases op with
  | opSetup i =>
    obtain ⟨_, _, _, _, _, _, _, _, _, _, hst, _⟩ := setup_elim h
    have hl : st'.locals = st.locals := by rw [hst]
    have hr : st'.raised = st.raised := by rw [hst]
    have hf : st'.funded = st.funded := by rw [hst]
    exact inv_of_frame hl hr hf hi
  | opContribute i =>
    obtain ⟨c, hg, hf0, _, _, _, hle, hst, _⟩ := contribute_elim h
    have hl : st'.locals = setLocal st.locals i.sender (c + i.pay.amount) := by rw [hst]
    have hr : st'.raised = st.raised + i.pay.amount := by rw [hst]
    refine ⟨?_, fun _ => ?_⟩
    · rw [hl]
      exact keysNodup_setLocal _ _ hi.1
    · rw [hr, hl]
      have hsum := sum_setLocal (c + i.pay.amount) hi.1 hg
      have hraw := hi.2 hf0
      omega
  | opClaim i =>
    obtain ⟨c, hg, hf1, _, hl, hr, hf, _, _, _, _, _, _⟩ := claim_elim h
    refine ⟨?_, fun h0 => ?_⟩
    · rw [hl]
      exact keysNodup_setLocal _ _ hi.1
    · rw [hf, hf1] at h0
      omega
  | opWithdraw i =>
    obtain ⟨_, _, _, _, hst, _⟩ := withdraw_elim h
    have hl : st'.locals = st.locals := by rw [hst]
    have hr : st'.raised = st.raised := by rw [hst]
    have hf : st'.funded = st.funded := by rw [hst]
    exact inv_of_frame hl hr hf hi
  | opRefund i =>
    obtain ⟨c, hg, _, hf0, _, _, hcr, hst, _⟩ := refund_elim h
    have hl : st'.locals = setLocal st.locals i.sender 0 := by rw [hst]
    have hr : st'.raised = st.raised - c := by rw [hst]
    have hf : st'.funded = st.funded := by rw [hst]
    refine ⟨?_, fun _ => ?_⟩
    · rw [hl]
      exact keysNodup_setLocal _ _ hi.1
    · rw [hr, hl]
      have hsum := sum_setLocal 0 hi.1 hg
      have hraw := hi.2 hf0
      omega
  | opReclaim i =>
    obtain ⟨_, _, _, _, _, _, hst, _⟩ := reclaim_elim h
    have hl : st'.locals = st.locals := by rw [hst]
    have hr : st'.raised = st.raised := by rw [hst]
    have hf : st'.funded = st.funded := by rw [hst]
    exact inv_of_frame hl hr hf hi
  | opSweepFailed i =>
    obtain ⟨_, hst⟩ := sweep_asa_failed_elim h
    have hl : st'.locals = st.locals := by rw [hst]
    have hr : st'.raised = st.raised := by rw [hst]
    have hf : st'.funded = st.funded := by rw [hst]
    exact inv_of_frame hl hr hf hi
  | opSweepSuccess i =>
    obtain ⟨_, hst⟩ := sweep_asa_success_elim h
    have hl : st'.locals = st.locals := by rw [hst]
    have hr : st'.raised = st.raised := by rw [hst]
    have hf : st'.funded = st.funded := by rw [hst]
    exact inv_of_frame hl hr hf hi
  | opCloseVault i =>
    obtain ⟨hl, hr, hf, _, _, _, _, _⟩ := close_vault_elim h
    exact inv_of_frame hl hr hf hi
  | opOptIn a =>
    obtain ⟨hg, hst⟩ := on_optin_elim h
    have hl : st'.locals = (a, 0) :: st.locals := by rw [hst]
    have hr : st'.raised = st.raised := by rw [hst]
    have hf : st'.funded = st.funded := by rw [hst]
    refine ⟨?_, fun h0 => ?_⟩
    · rw [hl]
      unfold KeysNodup
      simp only [List.map_cons, List.nodup_cons]
      exact ⟨getLocal_eq_none_iff.mp hg, hi.1⟩
    · rw [hr, hl, sumContribs_cons]
      have := hi.2 (hf ▸ h0)
      omega
  | opCloseOut a =>
    obtain ⟨hg, hst⟩ := on_closeout_elim h
    have hl : st'.locals = eraseLocal st.locals a := by rw [hst]
    have hr : st'.raised = st.raised := by rw [hst]
    have hf : st'.funded = st.funded := by rw [hst]
    refine ⟨?_, fun h0 => ?_⟩
    · rw [hl]
      exact keysNodup_eraseLocal _ hi.1
    · rw [hr, hl]
      have := sum_eraseLocal hi.1 hg
      have := hi.2 (hf ▸ h0)
      omega

lemma inv_reachable {st : CState} (h : Reachable st) : Inv st := by
  induction h with
  | create i st hc => exact inv_create hc
  | step st op st' out _ hap ih => exact inv_step ih hap

lemma contribStep_goal (st : CState) (i : ContributeInput) :
    (contribStep st i).goal = st.goal := by
  unfold contribStep
  cases hc : contribute st i with
  | none => rfl
  | some p =>
    cases p with
    | mk st' out =>
      obtain ⟨c, _, _, _, _, _, _, hst, _⟩ := contribute_elim hc
      rw [hst]

lemma contribStep_le (st : CState) (i : ContributeInput)
    (h : st.raised ≤ st.goal) :
    (contribStep st i).raised ≤ (contribStep st i).goal := by
  unfold contribStep
  cases hc : contribute st i with
  | none => exact h
  | some p =>
    cases p with
    | mk st' out =>
      obtain ⟨c, _, _, _, _, _, hle, hst, _⟩ := contribute_elim hc
      rw [hst]
      exact hle

lemma contribRun_le :
    ∀ (l : List ContributeInput) (st : CState), st.raised ≤ st.goal →
      (contribRun st l).raised ≤ (contribRun st l).goal := by
  intro l
  induction l with
  | nil => intro st h; exact h
  | cons i t ih => intro st h; exact ih _ (contribStep_le st i h)

lemma contribRun_goal :
    ∀ (l : List ContributeInput) (st : CState), (contribRun st l).goal = st.goal := by
  intro l
  induction l with
  | nil => intro st; rfl
  | cons i t ih =>
    intro st
    calc (contribRun (contribStep st i) t).goal
        = (contribStep st i).goal := ih _
      _ = st.goal := contribStep_goal st i

lemma paidOut_append (a b : List ITxn) :
    paidOut (a ++ b) = paidOut a + paidOut b := by
  induction a with
  | nil => simp [paidOut]
  | cons x t ih => cases x <;> simp [paidOut, ih] <;> omega

lemma paidOut_pay_opt (r a : Nat) :
    paidOut (if 0 < a then [ITxn.pay r a] else []) = a := by
  split
  · simp [paidOut]
  · simp only [paidOut]
    omega

lemma withdraw_eq (st : CState) (i : WithdrawInput)
    (hc : i.sender = st.creator ∧ st.funded = 1 ∧ st.minBalance ≤ st.balance
          ∧ st.raised * 2 < 2 ^ 64) :
    withdraw st i = some
      ({ st with balance :=
           st.balance
           - (if st.raised * 2 / 100 ≤ st.balance - st.minBalance
              then st.raised * 2 / 100 else st.balance - st.minBalance)
           - ((st.balance - st.minBalance)
              - (if st.raised * 2 / 100 ≤ st.balance - st.minBalance
                 then st.raised * 2 / 100 else st.balance - st.minBalance)) },
       (if 0 < (if st.raised * 2 / 100 ≤ st.balance - st.minBalance
                then st.raised * 2 / 100 else st.balance - st.minBalance)
        then [ITxn.pay st.admin
               (if st.raised * 2 / 100 ≤ st.balance - st.minBalance
                then st.raised * 2 / 100 else st.balance - st.minBalance)]
        else [])
       ++ (if 0 < ((st.balance - st.minBalance)
                   - (if st.raised * 2 / 100 ≤ st.balance - st.minBalance
                      then st.raised * 2 / 100 else st.balance - st.minBalance))
           then [ITxn.pay st.creator
                  ((st.balance - st.minBalance)
                   - (if st.raised * 2 / 100 ≤ st.balance - st.minBalance
                      then st.raised * 2 / 100 else st.balance - st.minBalance))]
           else [])) := by
  unfold withdraw
  rw [if_pos hc]

/-! ### The claims -/

/-- Claim C1: from any freshly created campaign, no sequence of
contribute attempts pushes `raised` past `goal`; an accepted contribute
adds its full payment amount to `raised`, and a contribute whose amount
would overshoot the goal is rejected outright. -/
theorem C1_raised_never_exceeds_goal :
    (∀ (ci : CreateInput) (st0 : CState), on_create ci = some st0 →
        ∀ l : List ContributeInput, (contribRun st0 l).raised ≤ st0.goal)
    ∧ (∀ (st : CState) (i : ContributeInput) (st' : CState) (out : List ITxn),
        contribute st i = some (st', out) → st'.raised = st.raised + i.pay.amount)
    ∧ (∀ (st : CState) (i : ContributeInput),
        st.goal < st.raised + i.pay.amount → contribute st i = none) := by
  refine ⟨?_, ?_, ?_⟩
  · intro ci st0 hc l
    have h0 : st0.raised ≤ st0.goal := by
      unfold on_create at hc
      split at hc
      case isTrue =>
        simp only [Option.some.injEq] at hc
        rw [← hc]
        exact Nat.zero_le _
      case isFalse => simp at hc
    calc (contribRun st0 l).raised
        ≤ (contribRun st0 l).goal := contribRun_le l st0 h0
      _ = st0.goal := contribRun_goal l st0
  · intro st i st' out h
    obtain ⟨c, _, _, _, _, _, _, hst, _⟩ := contribute_elim h
    rw [hst]
  · intro st i hover
    cases hg : getLocal st.locals i.sender with
    | none => simp [contribute, hg]
    | some c =>
      simp only [contribute, hg]
      split
      case isTrue hc => exact absurd hc.2.2.2.2.2.2.2.2.2.2.2 (by omega)
      case isFalse => rfl

/-- Witness for C1: the sample campaign's two contributions stay within
the goal; the latching contribute adds its full amount; a further
contribute past the goal is rejected. -/
theorem C1_raised_never_exceeds_goal_witness :
    (contribRun sampleCreated [sampleC10, sampleC11]).raised ≤ sampleCreated.goal
    ∧ sampleFunded.raised = sampleMid.raised + sampleC11.pay.amount
    ∧ contribute sampleFunded sampleC10 = none :=
  ⟨C1_raised_never_exceeds_goal.1 sampleCI sampleCreated (by decide) [sampleC10, sampleC11],
   C1_raised_never_exceeds_goal.2.1 sampleMid sampleC11 sampleFunded [] (by decide),
   C1_raised_never_exceeds_goal.2.2 sampleFunded sampleC10 (by decide)⟩

/-- Claim C3: a successful claim by a caller with recorded contribution
`c` requires `funded = 1` and `c > 0`, emits a token transfer of exactly
`floor(c * rate / 10^6)` to the caller when that is positive (none when
it is zero), zeroes the caller's record, and leaves `raised` unchanged. -/
theorem C3_claim_pays_floor (st : CState) (i : ClaimInput) (c : Nat)
    (st' : CState) (out : List ITxn)
    (hg : getLocal st.locals i.sender = some c)
    (h : claim st i = some (st', out)) :
    st.funded = 1 ∧ 0 < c
    ∧ (0 < c * st.rate / 1000000 →
        out = [ITxn.axfer st.asaId i.sender (c * st.rate / 1000000)])
    ∧ (c * st.rate / 1000000 = 0 → out = [])
    ∧ getLocal st'.locals i.sender = some 0
    ∧ st'.raised = st.raised := by
  obtain ⟨c', hg', hf, hcpos, hl, hr, _, _, _, _, _, hout1, hout0⟩ := claim_elim h
  have hcc : c = c' := by
    rw [hg] at hg'
    exact Option.some.inj hg'
  subst hcc
  refine ⟨hf, hcpos, hout1, hout0, ?_, hr⟩
  rw [hl]
  exact getLocal_setLocal_self 0 hg

/-- Witness for C3, the specification's scenario: with goal 10_000_000
and rate 100, the investor who contributed 6_000_000 receives exactly
600 reward tokens. -/
theorem C3_claim_pays_floor_witness :
    sampleFunded.funded = 1 ∧ 0 < 6000000
    ∧ (0 < 6000000 * sampleFunded.rate / 1000000 →
        [ITxn.axfer 7 10 600]
          = [ITxn.axfer sampleFunded.asaId 10 (6000000 * sampleFunded.rate / 1000000)])
    ∧ (6000000 * sampleFunded.rate / 1000000 = 0 → [ITxn.axfer 7 10 600] = ([] : List ITxn))
    ∧ getLocal sampleClaimed1.locals 10 = some 0
    ∧ sampleClaimed1.raised = sampleFunded.raised :=
  C3_claim_pays_floor sampleFunded { sender := 10, assets := [7] } 6000000 sampleClaimed1
    [ITxn.axfer 7 10 600] (by decide) (by decide)

/-- Claim C7: setup succeeds only when the caller is the creator, the
one-time latch is untripped, the collateral payment is exactly 2% of the
goal, the token seed covers `goal*rate/10^6`, and the reward token has
no default-frozen flag, freeze address or clawback address. -/
theorem C7_setup_preconditions (st : CState) (i : SetupInput) (st' : CState)
    (out : List ITxn) (h : setup st i = some (st', out)) :
    i.sender = st.creator
    ∧ st.asaId = 0 ∧ st.deposit = 0 ∧ st.raised = 0 ∧ st.funded = 0
    ∧ i.pay.amount = st.goal * 2 / 100
    ∧ st.goal * st.rate / 1000000 ≤ i.axfer.assetAmount
    ∧ i.params.defaultFrozen = 0 ∧ i.params.freezeAddr = 0 ∧ i.params.clawbackAddr = 0 := by
  obtain ⟨h1, h2, h3, h4, h5, h6, h7, h8, h9, h10, _, _⟩ := setup_elim h
  exact ⟨h1, h2, h3, h4, h5, h6, h7, h8, h9, h10⟩

/-- Witness for C7 at the sample campaign's successful setup. -/
theorem C7_setup_preconditions_witness :
    sampleSetupIn.sender = sampleCreated.creator
    ∧ sampleCreated.asaId = 0 ∧ sampleCreated.deposit = 0
    ∧ sampleCreated.raised = 0 ∧ sampleCreated.funded = 0
    ∧ sampleSetupIn.pay.amount = sampleCreated.goal * 2 / 100
    ∧ sampleCreated.goal * sampleCreated.rate / 1000000 ≤ sampleSetupIn.axfer.assetAmount
    ∧ sampleSetupIn.params.defaultFrozen = 0 ∧ sampleSetupIn.params.freezeAddr = 0
    ∧ sampleSetupIn.params.clawbackAddr = 0 :=
  C7_setup_preconditions sampleCreated sampleSetupIn sampleSetup
    [ITxn.axfer 7 3 0] (by decide)

/-- Claim C9: in every reachable state with `funded = 0`, the global
`raised` equals the sum of `contributed` over all opted-in accounts
(claim, the only operation that zeroes a contribution without
decrementing `raised`, requires `funded = 1`); consequently each
recorded contribution is at most `raised`, so the subtraction
`raised := raised - contributed` performed by refund never underflows. -/
theorem C9_raised_is_sum_while_unfunded (st : CState)
    (h : Reachable st) (hf : st.funded = 0) :
    st.raised = sumContribs st.locals
    ∧ ∀ a c, getLocal st.locals a = some c → c ≤ st.raised := by
  have hi := inv_reachable h
  have hs := hi.2 hf
  refine ⟨hs, fun a c hg => ?_⟩
  rw [hs]
  exact getLocal_le_sum hg

/-- Witness for C9 at a concrete reachable unfunded state (creation,
setup, two opt-ins and one contribution of 4_000_000). -/
theorem C9_raised_is_sum_while_unfunded_witness :
    sampleSmallMid.raised = sumContribs sampleSmallMid.locals
    ∧ ∀ a c, getLocal sampleSmallMid.locals a = some c → c ≤ sampleSmallMid.raised := by
  have r0 : Reachable sampleCreated := Reachable.create sampleCI sampleCreated (by decide)
  have r1 : Reachable sampleSetup :=
    Reachable.step _ (Op.opSetup sampleSetupIn) _ [ITxn.axfer 7 3 0] r0 (by decide)
  have r2 : Reachable { sampleSetup with locals := [(10, 0)] } :=
    Reachable.step _ (Op.opOptIn 10) _ [] r1 (by decide)
  have r3 : Reachable sampleOpted :=
    Reachable.step _ (Op.opOptIn 11) _ [] r2 (by decide)
  have r4 : Reachable sampleSmallMid :=
    Reachable.step _ (Op.opContribute sampleC10small) _ [] r3 (by decide)
  exact C9_raised_is_sum_while_unfunded sampleSmallMid r4 rfl

/-- Claim C2: across every operation, `funded` never reverts from 1 to 0;
it changes only at a contribute, from 0 to 1, exactly when that
contribute's accepted amount first makes `raised` equal `goal`. -/
theorem C2_funded_latch (st : CState) (op : Op) (st' : CState) (out : List ITxn)
    (h : apply st op = some (st', out)) :
    (st.funded = 1 → st'.funded = 1)
    ∧ (st'.funded ≠ st.funded →
        st.funded = 0 ∧ st'.funded = 1 ∧ st.raised < st.goal ∧ st'.raised = st.goal
          ∧ ∃ i, op = Op.opContribute i)
    ∧ (∀ i, op = Op.opContribute i →
        st.funded = 0 ∧ (st'.funded = 1 ↔ st'.raised = st.goal)) := by
  cases op with
  | opContribute i =>
    obtain ⟨c, hg, hf0, _, _, hpos, hle, hst, _⟩ := contribute_elim h
    have hr : st'.raised = st.raised + i.pay.amount := by rw [hst]
    have hf : st'.funded = if st.raised + i.pay.amount = st.goal then 1 else st.funded := by
      rw [hst]
    by_cases hcond : st.raised + i.pay.amount = st.goal
    · rw [if_pos hcond] at hf
      exact ⟨fun _ => hf,
             fun _ => ⟨hf0, hf, by omega, by omega, ⟨i, rfl⟩⟩,
             fun j hj => ⟨hf0, ⟨fun _ => by omega, fun _ => hf⟩⟩⟩
    · rw [if_neg hcond] at hf
      refine ⟨fun h1 => by omega,
              fun hne => absurd hf hne,
              fun j hj => ⟨hf0, ⟨fun h1 => by omega, fun h1 => by omega⟩⟩⟩
  | opSetup i =>
    obtain ⟨_, _, _, _, _, _, _, _, _, _, hst, _⟩ := setup_elim h
    have hf : st'.funded = st.funded := by rw [hst]
    exact ⟨fun h1 => by omega, fun hne => absurd hf hne, fun j hj => by simp at hj⟩
  | opClaim i =>
    obtain ⟨c, _, _, _, _, _, hf, _, _, _, _, _, _⟩ := claim_elim h
    exact ⟨fun h1 => by omega, fun hne => absurd hf hne, fun j hj => by simp at hj⟩
  | opWithdraw i =>
    obtain ⟨_, _, _, _, hst, _⟩ := withdraw_elim h
    have hf : st'.funded = st.funded := by rw [hst]
    exact ⟨fun h1 => by omega, fun hne => absurd hf hne, fun j hj => by simp at hj⟩
  | opRefund i =>
    obtain ⟨c, _, _, _, _, _, _, hst, _⟩ := refund_elim h
    have hf : st'.funded = st.funded := by rw [hst]
    exact ⟨fun h1 => by omega, fun hne => absurd hf hne, fun j hj => by simp at hj⟩
  | opReclaim i =>
    obtain ⟨_, _, _, _, _, _, hst, _⟩ := reclaim_elim h
    have hf : st'.funded = st.funded := by rw [hst]
    exact ⟨fun h1 => by omega, fun hne => absurd hf hne, fun j hj => by simp at hj⟩
  | opSweepFailed i =>
    obtain ⟨_, hst⟩ := sweep_asa_failed_elim h
    have hf : st'.funded = st.funded := by rw [hst]
    exact ⟨fun h1 => by omega, fun hne => absurd hf hne, fun j hj => by simp at hj⟩
  | opSweepSuccess i =>
    obtain ⟨_, hst⟩ := sweep_asa_success_elim h
    have hf : st'.funded = st.funded := by rw [hst]
    exact ⟨fun h1 => by omega, fun hne => absurd hf hne, fun j hj => by simp at hj⟩
  | opCloseVault i =>
    obtain ⟨_, _, hf, _, _, _, _, _⟩ := close_vault_elim h
    exact ⟨fun h1 => by omega, fun hne => absurd hf hne, fun j hj => by simp at hj⟩
  | opOptIn a =>
    obtain ⟨_, hst⟩ := on_optin_elim h
    have hf : st'.funded = st.funded := by rw [hst]
    exact ⟨fun h1 => by omega, fun hne => absurd hf hne, fun j hj => by simp at hj⟩
  | opCloseOut a =>
    obtain ⟨_, hst⟩ := on_closeout_elim h
    have hf : st'.funded = st.funded := by rw [hst]
    exact ⟨fun h1 => by omega, fun hne => absurd hf hne, fun j hj => by simp at hj⟩

/-- Witness for C2 at the concrete contribute that reaches the goal and
latches `funded`. -/
theorem C2_funded_latch_witness :
    (sampleMid.funded = 1 → sampleFunded.funded = 1)
    ∧ (sampleFunded.funded ≠ sampleMid.funded →
        sampleMid.funded = 0 ∧ sampleFunded.funded = 1
          ∧ sampleMid.raised < sampleMid.goal ∧ sampleFunded.raised = sampleMid.goal
          ∧ ∃ i, Op.opContribute sampleC11 = Op.opContribute i)
    ∧ (∀ i, Op.opContribute sampleC11 = Op.opContribute i →
        sampleMid.funded = 0 ∧ (sampleFunded.funded = 1 ↔ sampleFunded.raised = sampleMid.goal)) :=
  C2_funded_latch sampleMid (Op.opContribute sampleC11) sampleFunded [] (by decide)

/-- Claim C5: once `tokenId` is set, setup always fails; once `deposit`
is zero, reclaim always fails — each aborts with no state change. -/
theorem C5_one_time_latches :
    (∀ (st : CState) (i : SetupInput), st.asaId ≠ 0 → setup st i = none)
    ∧ (∀ (st : CState) (i : ReclaimInput), st.deposit = 0 → reclaim st i = none) := by
  constructor
  · intro st i ha
    unfold setup
    split
    case isTrue hc => exact absurd hc.2.1 ha
    case isFalse => rfl
  · intro st i hd
    unfold reclaim
    split
    case isTrue hc => exact absurd hc.2.2.2.2.1 (by omega)
    case isFalse => rfl

/-- Witness for C5: a second setup after setup, and a reclaim with the
deposit at zero, both fail. -/
theorem C5_one_time_latches_witness :
    setup sampleSetup sampleSetupIn = none
    ∧ reclaim sampleCreated { sender := 1, round := 60 } = none :=
  ⟨C5_one_time_latches.1 sampleSetup sampleSetupIn (by decide),
   C5_one_time_latches.2 sampleCreated { sender := 1, round := 60 } rfl⟩

/-- Claim C10: the delete-application handler approves exactly when the
escrow's native balance is zero, its reward-token holding is zero
whenever `tokenId` is set, and `raised` and `deposit` are both zero. -/
theorem C10_on_delete_iff (st : CState) :
    on_delete st = true ↔
      st.balance = 0 ∧ (st.asaId ≠ 0 → st.asaHolding = some 0)
        ∧ st.raised = 0 ∧ st.deposit = 0 := by
  unfold on_delete
  by_cases ha : st.asaId = 0
  · simp [ha, and_assoc]
  · simp [ha, and_assoc]

/-- Witness for C10: deletion is approved on a concrete fully-settled
state. -/
theorem C10_on_delete_iff_witness :
    on_delete { sampleClaimed2 with balance := 0, deposit := 0, raised := 0 } = true :=
  (C10_on_delete_iff { sampleClaimed2 with balance := 0, deposit := 0, raised := 0 }).mpr
    (by decide)

/-- Claim C6: for a contributor with a zero record, contribute(amount)
followed after the deadline (with `funded` still 0) by refund pays back
exactly `amount`, zeroes the record, and restores `raised` to its
pre-contribution value. -/
theorem C6_contribute_refund_roundtrip (st : CState) (i : ContributeInput)
    (st1 : CState) (out1 : List ITxn) (r : Nat)
    (h0 : getLocal st.locals i.sender = some 0)
    (h1 : contribute st i = some (st1, out1))
    (hf : st1.funded = 0)
    (hr : st.deadline < r) :
    ∃ st2, refund st1 { sender := i.sender, round := r }
        = some (st2, [ITxn.pay i.sender i.pay.amount])
      ∧ getLocal st2.locals i.sender = some 0
      ∧ st2.raised = st.raised := by
  obtain ⟨c, hg, _, _, _, hpos, hle, hst, _⟩ := contribute_elim h1
  have hc0 : c = 0 := by
    rw [h0] at hg
    exact (Option.some.inj hg).symm
  subst hc0
  have hl1 : st1.locals = setLocal st.locals i.sender (0 + i.pay.amount) := by rw [hst]
  rw [Nat.zero_add] at hl1
  have hr1 : st1.raised = st.raised + i.pay.amount := by rw [hst]
  have hb1 : st1.balance = st.balance + i.pay.amount := by rw [hst]
  have hd1 : st1.deadline = st.deadline := by rw [hst]
  have hg1 : getLocal st1.locals i.sender = some i.pay.amount := by
    rw [hl1]
    exact getLocal_setLocal_self _ hg
  refine ⟨{ st1 with balance := st1.balance - i.pay.amount,
                     locals := setLocal st1.locals i.sender 0,
                     raised := st1.raised - i.pay.amount }, ?_, ?_, ?_⟩
  · simp only [refund, hg1]
    rw [if_pos ⟨by omega, hf, by omega, by omega, by omega⟩]
  · exact getLocal_setLocal_self 0 hg1
  · show st1.raised - i.pay.amount = st.raised
    omega

/-- Witness for C6: investor 10 contributes 4_000_000 into the sample
campaign, the deadline passes unfunded, and the refund returns exactly
4_000_000. -/
theorem C6_contribute_refund_roundtrip_witness :
    ∃ st2, refund sampleSmallMid { sender := 10, round := 60 }
        = some (st2, [ITxn.pay 10 4000000])
      ∧ getLocal st2.locals 10 = some 0
      ∧ st2.raised = sampleOpted.raised :=
  C6_contribute_refund_roundtrip sampleOpted sampleC10small sampleSmallMid [] 60
    (by decide) (by decide) rfl (by decide)

/-- Claim C8: withdraw by the creator after success always succeeds (no
one-time latch), computes `admin_fee = min(2% of raised, unlocked)` and
`to_creator = unlocked - admin_fee`, pays each when positive, leaves the
escrow at the protocol minimum, and a second invocation is again
accepted with `admin_fee` recomputed from the unchanged `raised`. -/
theorem C8_withdraw_fee_split_no_latch (st : CState) (i : WithdrawInput)
    (hs : i.sender = st.creator) (hf : st.funded = 1)
    (hb : st.minBalance ≤ st.balance) (ho : st.raised * 2 < 2 ^ 64) :
    ∃ st' out, withdraw st i = some (st', out)
      ∧ out =
          (if 0 < min (st.raised * 2 / 100) (st.balance - st.minBalance)
           then [ITxn.pay st.admin (min (st.raised * 2 / 100) (st.balance - st.minBalance))]
           else [])
          ++ (if 0 < (st.balance - st.minBalance)
                    - min (st.raised * 2 / 100) (st.balance - st.minBalance)
              then [ITxn.pay st.creator
                     ((st.balance - st.minBalance)
                      - min (st.raised * 2 / 100) (st.balance - st.minBalance))]
              else [])
      ∧ st'.raised = st.raised ∧ st'.balance = st.minBalance ∧ st'.funded = 1
      ∧ ∃ st'' out2, withdraw st' i = some (st'', out2) ∧ st''.raised = st.raised := by
  have E := withdraw_eq st i ⟨hs, hf, hb, ho⟩
  refine ⟨_, _, E, ?_, rfl, ?_, hf, ?_⟩
  · rw [min_def]
  · show st.balance
        - (if st.raised * 2 / 100 ≤ st.balance - st.minBalance
           then st.raised * 2 / 100 else st.balance - st.minBalance)
        - ((st.balance - st.minBalance)
           - (if st.raised * 2 / 100 ≤ st.balance - st.minBalance
              then st.raised * 2 / 100 else st.balance - st.minBalance)) = st.minBalance
    split <;> omega
  · have hb2 : st.minBalance ≤
        st.balance
        - (if st.raised * 2 / 100 ≤ st.balance - st.minBalance
           then st.raised * 2 / 100 else st.balance - st.minBalance)
        - ((st.balance - st.minBalance)
           - (if st.raised * 2 / 100 ≤ st.balance - st.minBalance
              then st.raised * 2 / 100 else st.balance - st.minBalance)) := by
      split <;> omega
    exact ⟨_, _, withdraw_eq _ i ⟨hs, hf, hb2, ho⟩, rfl⟩

/-- Witness for C8 at the funded sample campaign: the 200_000 fee goes to
the admin, 10_200_000 to the creator, and a second withdraw is accepted. -/
theorem C8_withdraw_fee_split_no_latch_witness :
    ∃ st' out, withdraw sampleFunded { sender := 1 } = some (st', out)
      ∧ out =
          (if 0 < min (sampleFunded.raised * 2 / 100)
                    (sampleFunded.balance - sampleFunded.minBalance)
           then [ITxn.pay sampleFunded.admin
                  (min (sampleFunded.raised * 2 / 100)
                    (sampleFunded.balance - sampleFunded.minBalance))]
           else [])
          ++ (if 0 < (sampleFunded.balance - sampleFunded.minBalance)
                    - min (sampleFunded.raised * 2 / 100)
                        (sampleFunded.balance - sampleFunded.minBalance)
              then [ITxn.pay sampleFunded.creator
                     ((sampleFunded.balance - sampleFunded.minBalance)
                      - min (sampleFunded.raised * 2 / 100)
                          (sampleFunded.balance - sampleFunded.minBalance))]
              else [])
      ∧ st'.raised = sampleFunded.raised ∧ st'.balance = sampleFunded.minBalance
      ∧ st'.funded = 1
      ∧ ∃ st'' out2, withdraw st' { sender := 1 } = some (st'', out2)
          ∧ st''.raised = sampleFunded.raised :=
  C8_withdraw_fee_split_no_latch sampleFunded { sender := 1 }
    (by decide) (by decide) (by decide) (by decide)

/-- Counterexample to C4 as stated: on a reachable funded campaign whose
token holding has been fully claimed, `close_vault` is accepted and
empties the escrow's native balance to 0, strictly below the protocol
minimum reserve — the closing payment is not bounded by `unlocked`. -/
theorem C4_close_vault_empties_below_reserve :
    Reachable sampleClaimed2
    ∧ close_vault sampleClaimed2 { sender := 1, round := 60 }
        = some (sampleClosed, [ITxn.axferClose 7 1 0 1, ITxn.payClose 1 0 1])
    ∧ sampleClosed.balance < sampleClosed.minBalance := by
  refine ⟨?_, by decide, by decide⟩
  have r0 : Reachable sampleCreated := Reachable.create sampleCI sampleCreated (by decide)
  have r1 : Reachable sampleSetup :=
    Reachable.step _ (Op.opSetup sampleSetupIn) _ [ITxn.axfer 7 3 0] r0 (by decide)
  have r2 : Reachable { sampleSetup with locals := [(10, 0)] } :=
    Reachable.step _ (Op.opOptIn 10) _ [] r1 (by decide)
  have r3 : Reachable sampleOpted :=
    Reachable.step _ (Op.opOptIn 11) _ [] r2 (by decide)
  have r4 : Reachable sampleMid :=
    Reachable.step _ (Op.opContribute sampleC10) _ [] r3 (by decide)
  have r5 : Reachable sampleFunded :=
    Reachable.step _ (Op.opContribute sampleC11) _ [] r4 (by decide)
  have r6 : Reachable sampleClaimed1 :=
    Reachable.step _ (Op.opClaim { sender := 10, assets := [7] }) _
      [ITxn.axfer 7 10 600] r5 (by decide)
  exact Reachable.step _ (Op.opClaim { sender := 11, assets := [7] }) _
    [ITxn.axfer 7 11 400] r6 (by decide)

/-- Claim C4, amended: `withdraw` and `reclaim` never reduce the escrow
balance below the protocol minimum — the payment amounts they authorize
are bounded by `unlocked = balance - minimum` computed beforehand;
`close_vault`, by contrast, terminally empties the account: its explicit
payment amounts are all 0 but its closing payment removes the entire
remaining balance, reserve included. -/
theorem C4_payout_cap_amended :
    (∀ (st : CState) (i : WithdrawInput) (st' : CState) (out : List ITxn),
        withdraw st i = some (st', out) →
        paidOut out ≤ st.balance - st.minBalance ∧ st.minBalance ≤ st'.balance)
    ∧ (∀ (st : CState) (i : ReclaimInput) (st' : CState) (out : List ITxn),
        reclaim st i = some (st', out) →
        paidOut out ≤ st.balance - st.minBalance ∧ st.minBalance ≤ st'.balance)
    ∧ (∀ (st : CState) (i : SweepInput) (st' : CState) (out : List ITxn),
        close_vault st i = some (st', out) →
        st'.balance = 0 ∧ paidOut out = 0) := by
  refine ⟨?_, ?_, ?_⟩
  · intro st i st' out h
    obtain ⟨_, _, hb, _, hst, hout⟩ := withdraw_elim h
    have hb' : st'.balance =
        st.balance
        - (if st.raised * 2 / 100 ≤ st.balance - st.minBalance
           then st.raised * 2 / 100 else st.balance - st.minBalance)
        - ((st.balance - st.minBalance)
           - (if st.raised * 2 / 100 ≤ st.balance - st.minBalance
              then st.raised * 2 / 100 else st.balance - st.minBalance)) := by
      rw [hst]
    constructor
    · rw [hout, paidOut_append, paidOut_pay_opt, paidOut_pay_opt]
      split <;> omega
    · rw [hb']
      split <;> omega
  · intro st i st' out h
    obtain ⟨_, _, _, _, _, hb, hst, hout⟩ := reclaim_elim h
    have hb' : st'.balance =
        st.balance
        - (if st.balance - st.minBalance < st.deposit / 2
           then st.balance - st.minBalance else st.deposit / 2)
        - (if (st.balance - st.minBalance)
              - (if st.balance - st.minBalance < st.deposit / 2
                 then st.balance - st.minBalance else st.deposit / 2)
              < st.deposit / 2
           then (st.balance - st.minBalance)
                - (if st.balance - st.minBalance < st.deposit / 2
                   then st.balance - st.minBalance else st.deposit / 2)
           else st.deposit / 2) := by
      rw [hst]
    constructor
    · rw [hout, paidOut_append, paidOut_pay_opt, paidOut_pay_opt]
      split <;> split <;> omega
    · rw [hb']
      split <;> split <;> omega
  · intro st i st' out h
    obtain ⟨_, _, _, _, _, _, hbal, hpaid⟩ := close_vault_elim h
    exact ⟨hbal, hpaid⟩

/-- Witness for the amended C4 at the sample campaign's withdraw, reclaim
and close. -/
theorem C4_payout_cap_amended_witness :
    (paidOut [ITxn.pay 2 200000, ITxn.pay 1 10200000]
        ≤ sampleFunded.balance - sampleFunded.minBalance
      ∧ sampleFunded.minBalance ≤ ({ sampleFunded with balance := 100000 } : CState).balance)
    ∧ (paidOut [ITxn.pay 2 100000, ITxn.pay 1 100000]
        ≤ sampleSetup.balance - sampleSetup.minBalance
      ∧ sampleSetup.minBalance
          ≤ ({ sampleSetup with balance := 300000, deposit := 0 } : CState).balance)
    ∧ (sampleClosed.balance = 0
      ∧ paidOut [ITxn.axferClose 7 1 0 1, ITxn.payClose 1 0 1] = 0) :=
  ⟨C4_payout_cap_amended.1 sampleFunded { sender := 1 }
      { sampleFunded with balance := 100000 }
      [ITxn.pay 2 200000, ITxn.pay 1 10200000] (by decide),
   C4_payout_cap_amended.2.1 sampleSetup { sender := 1, round := 60 }
      { sampleSetup with balance := 300000, deposit := 0 }
      [ITxn.pay 2 100000, ITxn.pay 1 100000] (by decide),
   C4_payout_cap_amended.2.2 sampleClaimed2 { sender := 1, round := 60 }
      sampleClosed [ITxn.axferClose 7 1 0 1, ITxn.payClose 1 0 1] (by decide)⟩

end Crowdfund
